import Mathlib

/-!
Verification of the mcp-of-mcps meta-server core against its source.

The development shallowly embeds the TypeScript source:

* `JSValue` models the dynamic JavaScript values flowing through the
  sandbox (tool responses, inferred schemas, script results).
* `DbRow` / `ToolDatabase` model the persistent tool-metadata store
  (`tools` table, UNIQUE(serverName, toolName)).
* `ToolF`, `ClientModel`, `ServerInfoModel` model the tool descriptors,
  downstream MCP clients and the `ServerInfo` records of the registry.
* Operations are translated from `src/src/index.ts` (SandboxManagerImpl),
  `src/src/sandboxManager.ts` (legacy SandboxManager),
  `src/src/mcpOfMcps.ts`, the `ServersRegistry` file and the
  `ToolCallHandler`/`MCPToolsParser` file.
-/

/-- Dynamic JavaScript value, as flows through the sandbox and the
tool-output cache.  Thenables (values with a callable `then`) are
modelled by the `promise` constructor, which carries the eventual
settlement of the promise (resolution value or rejection message). -/
inductive JSValue where
  | undefined : JSValue
  | null : JSValue
  | bool : Bool → JSValue
  | num : Int → JSValue
  | str : String → JSValue
  | arr : List JSValue → JSValue
  | obj : List (String × JSValue) → JSValue
  | fn : JSValue
  | promise : Except String JSValue → JSValue
deriving Repr

/-- JavaScript truthiness of a value. -/
def JSValue.truthy : JSValue → Bool
  | .undefined => false
  | .null => false
  | .bool b => b
  | .num n => n != 0
  | .str s => s ≠ ""
  | .arr _ => true
  | .obj _ => true
  | .fn => true
  | .promise _ => true

/-- Whether a value is nullish (`null` or `undefined`), the condition
tested by the JavaScript `??` operator. -/
def JSValue.nullish : JSValue → Bool
  | .undefined => true
  | .null => true
  | _ => false

/-- Member access `v.field`: `undefined` on non-objects and missing keys. -/
def jsGet (v : JSValue) (field : String) : JSValue :=
  match v with
  | .obj fs => ((fs.find? (fun kv => kv.1 == field)).map (fun kv => kv.2)).getD .undefined
  | _ => .undefined

/-- JavaScript `a || b`. -/
def jsOr (a b : JSValue) : JSValue := if a.truthy then a else b

/-- JavaScript `a ?? b`. -/
def jsNullishOr (a b : JSValue) : JSValue := if a.nullish then b else a

/-- Whether `typeof v.then === 'function'` holds: only the promise
(thenable) values of the model have a callable `then`. -/
def JSValue.hasCallableThen : JSValue → Bool
  | .promise _ => true
  | _ => false

/-- Minimal JSON string escaping used by `jsonStringify`. -/
def jsonEscape (s : String) : String :=
  s.foldl (fun acc c =>
    acc ++ (if c = '"' then "\\\"" else if c = '\\' then "\\\\"
            else if c = '\n' then "\\n" else String.singleton c)) ""

mutual

/-- `JSON.stringify` (compact form) over the value model; functions and
missing values serialize as `null`, which is all the development needs
(only plain data reaches it in the modelled code paths). -/
def jsonStringify : JSValue → String
  | .undefined => "null"
  | .null => "null"
  | .bool b => if b then "true" else "false"
  | .num n => toString n
  | .str s => "\"" ++ jsonEscape s ++ "\""
  | .arr xs => "[" ++ jsonStringifyElems xs ++ "]"
  | .obj fs => "\x7b" ++ jsonStringifyFields fs ++ "\x7d"
  | .fn => "null"
  | .promise _ => "\x7b\x7d"

/-- Comma-separated serialization of array elements. -/
def jsonStringifyElems : List JSValue → String
  | [] => ""
  | [x] => jsonStringify x
  | x :: xs => jsonStringify x ++ "," ++ jsonStringifyElems xs

/-- Comma-separated serialization of object fields. -/
def jsonStringifyFields : List (String × JSValue) → String
  | [] => ""
  | [(k, v)] => "\"" ++ jsonEscape k ++ "\":" ++ jsonStringify v
  | (k, v) :: fs =>
      "\"" ++ jsonEscape k ++ "\":" ++ jsonStringify v ++ "," ++ jsonStringifyFields fs

end

mutual

/-- Structural boolean equality on `JSValue`, used by the schema-union
step of the inference model. -/
def beqJSValue : JSValue → JSValue → Bool
  | .undefined, .undefined => true
  | .null, .null => true
  | .bool a, .bool b => a == b
  | .num a, .num b => a == b
  | .str a, .str b => a == b
  | .arr xs, .arr ys => beqJSValueList xs ys
  | .obj fs, .obj gs => beqJSValueFields fs gs
  | .fn, .fn => true
  | .promise (.ok a), .promise (.ok b) => beqJSValue a b
  | .promise (.error a), .promise (.error b) => a == b
  | _, _ => false

/-- Element-wise equality on value lists. -/
def beqJSValueList : List JSValue → List JSValue → Bool
  | [], [] => true
  | x :: xs, y :: ys => beqJSValue x y && beqJSValueList xs ys
  | _, _ => false

/-- Element-wise equality on field lists. -/
def beqJSValueFields : List (String × JSValue) → List (String × JSValue) → Bool
  | [], [] => true
  | (k, v) :: fs, (l, w) :: gs => k == l && beqJSValue v w && beqJSValueFields fs gs
  | _, _ => false

end

/-- An `any`-equivalent schema. -/
def anySchema : JSValue := .obj [("type", .str "any")]

mutual

/-- Modelled from the spec: `convertOutputToSchema` lives in
`src/utils.ts`, which is not among the provided sources.  Section 4.7
describes it as a structural generalization of the response value:
object fields typed by observed leaf type, arrays typed by the union of
element types, null or missing yielding an `any`-equivalent, and
conservative (`any`) on mixed arrays. -/
def schemaOf : JSValue → JSValue
  | .undefined => anySchema
  | .null => anySchema
  | .bool _ => .obj [("type", .str "boolean")]
  | .num _ => .obj [("type", .str "number")]
  | .str _ => .obj [("type", .str "string")]
  | .arr xs => .obj [("type", .str "array"), ("items", schemaOfItems xs)]
  | .obj fs => .obj [("type", .str "object"), ("properties", .obj (schemaOfFields fs))]
  | .fn => anySchema
  | .promise _ => anySchema

/-- Union of the element schemas of an array: the common schema when all
elements generalize alike, `any` on mixed arrays. -/
def schemaOfItems : List JSValue → JSValue
  | [] => anySchema
  | [x] => schemaOf x
  | x :: y :: rest =>
      let s := schemaOf x
      let t := schemaOfItems (y :: rest)
      if beqJSValue s t then s else anySchema

/-- Field-wise structural generalization of an object. -/
def schemaOfFields : List (String × JSValue) → List (String × JSValue)
  | [] => []
  | (k, v) :: fs => (k, schemaOf v) :: schemaOfFields fs

end

/-- Modelled from the spec: wrapper with the guard shape of the call
site (`if (outputSchema)` in `updateOutputSchema`); the structural
generalization always produces a schema object. -/
def convertOutputToSchema (output : JSValue) : Option JSValue :=
  some (schemaOf output)

/-- Whether a character is legal in a sanitized title (`[A-Za-z0-9_]`). -/
def isWordChar (c : Char) : Bool :=
  ('A' ≤ c && c ≤ 'Z') || ('a' ≤ c && c ≤ 'z') || ('0' ≤ c && c ≤ '9') || c = '_'

/-- Collapse every run of non-word characters into a single underscore;
the flag records whether the previous character was replaced. -/
def sanitizeChars : List Char → Bool → List Char
  | [], _ => []
  | c :: cs, prevReplaced =>
      if isWordChar c then c :: sanitizeChars cs false
      else if prevReplaced then sanitizeChars cs true
      else '_' :: sanitizeChars cs true

/-- Modelled from the spec: `convertToolName` lives in `src/utils.ts`,
which is not among the provided sources.  Section 4.5 describes the
sanitization: replace every run of characters outside `[A-Za-z0-9_]`
with `_` and prepend `_` if the first character is a digit.  (The
cross-tool collision suffixing described there has no per-call
counterpart: the source applies `convertToolName` to one name at a
time.) -/
def convertToolName (name : String) : String :=
  let s := String.mk (sanitizeChars name.data false)
  match s.data with
  | c :: _ => if c.isDigit then "_" ++ s else s
  | [] => s

/-- Tool descriptor as held in `ServerInfo.tools`: `name` is the
downstream wire identifier, `title` the sanitized alias assigned by
`registerServer`. -/
structure ToolF where
  name : String
  title : String
  description : String
  inputSchema : JSValue
  outputSchema : Option JSValue
deriving Repr

/-- Downstream MCP client handle, reduced to the surface the modelled
code uses: `getInstructions` and the outcome of `listTools`. -/
structure ClientModel where
  instructions : Option String
  listToolsResult : Except String (List ToolF)
deriving Repr

/-- Runtime `ServerInfo` record `\x7b name, client, tools \x7d`; the
client is optional because the generated stubs guard on it. -/
structure ServerInfoModel where
  name : String
  client : Option ClientModel
  tools : List ToolF
deriving Repr

/-- The registry / sandbox `serversInfo` map, in insertion order. -/
abbrev ServersInfoMap := List (String × ServerInfoModel)

/-- Row of the persisted `tools` table (`UNIQUE(serverName, toolName)`);
the `lastUpdated` timestamp column carries no modelled behavior. -/
structure DbRow where
  serverName : String
  toolName : String
  outputSchema : Option String
  originalOutputSchema : Bool
deriving Repr, DecidableEq

/-- The tool-metadata store: the list of persisted rows. -/
abbrev ToolDatabase := List DbRow

/-- `toolDatabase.getTool(serverName, toolName)`. -/
def dbGetTool (db : ToolDatabase) (s t : String) : Option DbRow :=
  db.find? (fun r => r.serverName == s && r.toolName == t)

/-- Modelled from the spec: `ServersToolDatabaseImpl.updateTool` lives in
`src/infrastructure/database/serversToolDatabaseImpl.ts`, which is not
among the provided sources.  Per section 4.2 the write is idempotent on
the `(server, tool)` key: it sets the row's `outputSchema` and
`originalOutputSchema` columns in place. -/
def dbUpdateTool (db : ToolDatabase) (s t : String) (schema : String)
    (original : Bool) : ToolDatabase :=
  db.map (fun r =>
    if r.serverName == s && r.toolName == t then
      { r with outputSchema := some schema, originalOutputSchema := original }
    else r)

/-- The per-run tool-output cache: `serverName` to the ordered list of
`\x7b toolName, output \x7d` entries pushed by the stubs. -/
abbrev ToolOutputCache := List (String × List (String × JSValue))

/-- The push performed by a generated stub: append to the server's
bucket when the bucket exists, otherwise do nothing (the generated code
guards on `if (serverCache)`). -/
def pushCache (cache : ToolOutputCache) (serverName toolName : String)
    (output : JSValue) : ToolOutputCache :=
  cache.map (fun b =>
    if b.1 == serverName then (b.1, b.2 ++ [(toolName, output)]) else b)

/-- Replace the first tool named `toolName` with a copy carrying the
inferred schema (`serverInfo.tools.find(...)` followed by the in-place
assignment in `updateOutputSchema`). -/
def setToolSchemaFirst : List ToolF → String → JSValue → List ToolF
  | [], _, _ => []
  | t :: ts, toolName, schema =>
      if t.name == toolName then { t with outputSchema := some schema } :: ts
      else t :: setToolSchemaFirst ts toolName schema

/-- Mirror an inferred schema into the in-memory `ServerInfo` of the
matching server. -/
def mirrorSchema (si : ServersInfoMap) (serverName toolName : String)
    (schema : JSValue) : ServersInfoMap :=
  si.map (fun e =>
    if e.1 == serverName then
      (e.1, { e.2 with tools := setToolSchemaFirst e.2.tools toolName schema })
    else e)

/-- One iteration of the drain loop in
`SandboxManagerImpl.updateOutputSchema` (src/src/index.ts:122-164): for
a captured `(serverName, toolName, output)` entry, generalize the
output, look the tool up in the store (a missing row throws, which the
per-entry catch swallows), and only when the existing row has
`originalOutputSchema = false` write the inferred schema to the store
and mirror it into the in-memory tool. -/
def updateEntry (db : ToolDatabase) (si : ServersInfoMap)
    (serverName toolName : String) (output : JSValue) :
    ToolDatabase × ServersInfoMap :=
  match convertOutputToSchema output with
  | none => (db, si)
  | some schema =>
    match dbGetTool db serverName toolName with
    | none => (db, si)
    | some row =>
      if row.originalOutputSchema then (db, si)
      else
        (dbUpdateTool db serverName toolName (jsonStringify schema) false,
         mirrorSchema si serverName toolName schema)

/-- The full schema-inference drain: both loops of
`SandboxManagerImpl.updateOutputSchema`, over every bucket of the
tool-output cache. -/
def updateOutputSchema (db : ToolDatabase) (si : ServersInfoMap)
    (cache : ToolOutputCache) : ToolDatabase × ServersInfoMap :=
  cache.foldl
    (fun acc bucket =>
      bucket.2.foldl
        (fun acc2 entry => updateEntry acc2.1 acc2.2 bucket.1 entry.1 entry.2)
        acc)
    (db, si)

/-- `SandboxManagerImpl.clearAndSetToolOutCache`
(src/src/index.ts:290-295): clear the cache and re-seed one empty
bucket per registered server. -/
def clearAndSetToolOutCache (si : ServersInfoMap) : ToolOutputCache :=
  si.map (fun e => (e.1, ([] : List (String × JSValue))))

/-- The mutable state touched by a sandbox run: the metadata store, the
`serversInfo` map and the tool-output cache. -/
structure SandboxState where
  toolDatabase : ToolDatabase
  serversInfo : ServersInfoMap
  toolOutputCache : ToolOutputCache

/-- Settlement of the value produced by `vm.run`: a promise settles to
its resolution or rejection, any other value stands as is. -/
def settleValue : JSValue → Except String JSValue
  | .promise s => s
  | v => .ok v

/-- `SandboxManagerImpl.execute` (src/src/index.ts:96-120).  `runResult`
is the outcome of `this.vm.run(code, filename)`: `.error` when the run
throws synchronously, `.ok r` when it returns value `r`.  When `r` is a
thenable (`result && typeof result.then === 'function'`) it is awaited;
a rejection propagates to the catch, which rethrows.  Only on success
does the schema-inference drain run, followed by the cache reset. -/
def execute (st : SandboxState) (runResult : Except String JSValue) :
    Except String JSValue × SandboxState :=
  match runResult with
  | .error e => (.error e, st)
  | .ok r =>
    match (if r.truthy && r.hasCallableThen then settleValue r else .ok r) with
    | .error e => (.error e, st)
    | .ok v =>
      let drained := updateOutputSchema st.toolDatabase st.serversInfo st.toolOutputCache
      (.ok v,
       { toolDatabase := drained.1
         serversInfo := drained.2
         toolOutputCache := clearAndSetToolOutCache drained.2 })

/-- Splitter over the character list: close the pending chunk at each
separator. -/
def splitChars (sep : Char) : List Char → List Char → List String
  | [], acc => [String.mk acc.reverse]
  | c :: cs, acc =>
      if c = sep then String.mk acc.reverse :: splitChars sep cs []
      else splitChars sep cs (c :: acc)

/-- JavaScript `s.split(sep)` for a one-character separator, as used by
`getToolsOverview` on tool paths (and by the development to separate the
overview lines). -/
def jsSplit (sep : Char) (s : String) : List String :=
  splitChars sep s.data []

/-- Look a server up in a `serversInfo` map (`Map.get`). -/
def lookupServer (si : ServersInfoMap) (serverName : String) :
    Option ServerInfoModel :=
  ((si.find? (fun e => e.1 == serverName)).map (fun e => e.2))

/-- `ServersRegistry.hasServer` / `this.serversInfo.has(serverName)`. -/
def hasServer (si : ServersInfoMap) (serverName : String) : Bool :=
  (lookupServer si serverName).isSome

/-- Look a connection up in the `MCPConnection` map
(`getConnection`). -/
def lookupConnection (conns : List (String × ClientModel))
    (serverName : String) : Option ClientModel :=
  ((conns.find? (fun e => e.1 == serverName)).map (fun e => e.2))

/-- `ServersRegistry.registerServer` (registry source lines 28-57).
Returns the outcome together with the resulting map: a throw leaves the
map as it was, success appends the new `ServerInfo` (Map insertion
order).  Titles are computed with `convertToolName` before the entry is
stored. -/
def registerServer (reg : ServersInfoMap)
    (conns : List (String × ClientModel)) (serverName : String) :
    Except String Unit × ServersInfoMap :=
  if hasServer reg serverName then
    (.error ("Server '" ++ serverName ++ "' is already registered"), reg)
  else
    match lookupConnection conns serverName with
    | none =>
        (.error ("Connection for server '" ++ serverName ++ "' not found"), reg)
    | some client =>
      match client.listToolsResult with
      | .error msg =>
          (.error ("Failed to register server '" ++ serverName ++ "': " ++ msg),
           reg)
      | .ok tools =>
        let tools := tools.map (fun t => { t with title := convertToolName t.name })
        (.ok (),
         reg ++ [(serverName,
                  { name := serverName, client := some client, tools := tools })])

/-- `ServersRegistry.registerAllServers` (registry source lines 62-76):
register every connection, catching and logging per-server failures so
that the remaining servers still register. -/
def registerAllServers (reg : ServersInfoMap)
    (conns : List (String × ClientModel)) : ServersInfoMap :=
  conns.foldl (fun r e => (registerServer r conns e.1).2) reg

/-- `ServersRegistry.getTool` (registry source lines 138-144): throws
when the server is absent, otherwise finds the tool by its downstream
wire `name`. -/
def getToolFromRegistry (reg : ServersInfoMap) (serverName toolName : String) :
    Except String (Option ToolF) :=
  match lookupServer reg serverName with
  | none => .error ("Server '" ++ serverName ++ "' not found in registry")
  | some si => .ok (si.tools.find? (fun t => t.name == toolName))

/-- The lines accumulated by `MCPToolsParser.getServersOverview` before
sorting: per server (map order) a header line only when the client's
instructions are truthy, then one `server/title` line per tool. -/
def rawOverviewLines (si : ServersInfoMap) : List String :=
  si.foldl
    (fun acc e =>
      let headers :=
        match e.2.client with
        | some c =>
          match c.instructions with
          | some instr =>
              if instr ≠ "" then
                ["# " ++ e.1 ++ " mcp server nstructions: " ++ instr]
              else []
          | none => []
        | none => []
      (acc ++ headers) ++ e.2.tools.map (fun t => e.1 ++ "/" ++ t.title))
    []

/-- Lexicographic comparison of character lists by code point, the
order used by JavaScript `Array.prototype.sort()` on strings. -/
def charListLe : List Char → List Char → Bool
  | [], _ => true
  | _ :: _, [] => false
  | a :: as, b :: bs =>
      if a.toNat < b.toNat then true
      else if b.toNat < a.toNat then false
      else charListLe as bs

/-- The string order of the default JavaScript sort comparator. -/
def jsLe (a b : String) : Prop := charListLe a.data b.data = true

instance : DecidableRel jsLe := fun a b => by
  unfold jsLe; exact inferInstance

/-- `charListLe` is total. -/
theorem charListLe_total : ∀ as bs : List Char,
    charListLe as bs = true ∨ charListLe bs as = true := by
  intro as
  induction as with
  | nil => intro bs; left; rfl
  | cons a as ih =>
    intro bs
    cases bs with
    | nil => right; rfl
    | cons b bs =>
      by_cases h1 : a.toNat < b.toNat
      · left; simp [charListLe, h1]
      · by_cases h2 : b.toNat < a.toNat
        · right; simp [charListLe, h2]
        · rcases ih bs with h | h
          · left; simpa [charListLe, h1, h2] using h
          · right; simpa [charListLe, h1, h2] using h

/-- `charListLe` is transitive. -/
theorem charListLe_trans : ∀ as bs cs : List Char,
    charListLe as bs = true → charListLe bs cs = true →
    charListLe as cs = true := by
  intro as
  induction as with
  | nil => intro bs cs _ _; rfl
  | cons a as ih =>
    intro bs cs h1 h2
    cases bs with
    | nil => simp [charListLe] at h1
    | cons b bs =>
      cases cs with
      | nil => simp [charListLe] at h2
      | cons c cs =>
        simp only [charListLe] at h1 h2 ⊢
        by_cases hab : a.toNat < b.toNat
        · by_cases hbc : b.toNat < c.toNat
          · simp [Nat.lt_trans hab hbc]
          · simp only [hbc, if_false] at h2
            by_cases hcb : c.toNat < b.toNat
            · simp [hcb] at h2
            · have hbceq : b.toNat = c.toNat :=
                Nat.le_antisymm (Nat.le_of_not_lt hcb) (Nat.le_of_not_lt hbc)
              simp [hbceq ▸ hab]
        · simp only [hab, if_false] at h1
          by_cases hba : b.toNat < a.toNat
          · simp [hba] at h1
          · have habeq : a.toNat = b.toNat :=
              Nat.le_antisymm (Nat.le_of_not_lt hba) (Nat.le_of_not_lt hab)
            by_cases hbc : b.toNat < c.toNat
            · simp [habeq ▸ hbc]
            · simp only [hbc, if_false] at h2
              by_cases hcb : c.toNat < b.toNat
              · simp [hcb] at h2
              · have hbceq : b.toNat = c.toNat :=
                  Nat.le_antisymm (Nat.le_of_not_lt hcb) (Nat.le_of_not_lt hbc)
                have hac : ¬a.toNat < c.toNat := by rw [habeq, hbceq]; exact Nat.lt_irrefl _
                have hca : ¬c.toNat < a.toNat := by rw [habeq, hbceq]; exact Nat.lt_irrefl _
                rw [if_neg hac, if_neg hca]
                rw [if_neg hba] at h1
                rw [if_neg hcb] at h2
                exact ih bs cs h1 h2

instance : IsTotal String jsLe :=
  ⟨fun a b => charListLe_total a.data b.data⟩

instance : IsTrans String jsLe :=
  ⟨fun a b c => charListLe_trans a.data b.data c.data⟩

/-- The sorted line list (`lines.sort()`). -/
def overviewLines (si : ServersInfoMap) : List String :=
  List.insertionSort jsLe (rawOverviewLines si)

/-- `MCPToolsParser.getServersOverview` (tools-parser source lines
201-220): collect the lines, sort them as one flat list, join with
newlines. -/
def getServersOverview (si : ServersInfoMap) : String :=
  String.intercalate "\n" (overviewLines si)

/-- One element of the JSON array built by
`MCPToolsParser.getToolsOverview`: the spread tool plus the
`exampleUsage` string. -/
structure ToolOverviewEntry where
  name : String
  title : String
  description : String
  inputSchema : JSValue
  outputSchema : Option JSValue
  exampleUsage : String
deriving Repr

/-- The `exampleUsage` template literal of `getToolsOverview`. -/
def exampleUsageFor (serverName : String) (t : ToolF) : String :=
  "const " ++ t.title ++ " = require('./" ++ serverName ++ "/" ++ t.title ++
    ".cjs');\nmodule.exports = " ++ t.title ++
    "(\x7b /* your parameters here */ \x7d);"

/-- Build the JSON entry for a resolved tool. -/
def mkOverviewEntry (serverName : String) (t : ToolF) : ToolOverviewEntry :=
  { name := t.name, title := t.title, description := t.description
    inputSchema := t.inputSchema, outputSchema := t.outputSchema
    exampleUsage := exampleUsageFor serverName t }

/-- `MCPToolsParser.getToolsOverview` (tools-parser source lines
227-263), at the level of the array it serializes: each path must split
into exactly two `/`-separated parts (else throw naming the path), its
server must be registered (else throw), and a known server with an
unknown tool title is skipped with a logged warning while the remaining
paths are still processed. -/
def getToolsOverviewEntries (si : ServersInfoMap) :
    List String → Except String (List ToolOverviewEntry)
  | [] => .ok []
  | p :: rest =>
    match jsSplit '/' p with
    | [serverName, toolName] =>
      match lookupServer si serverName with
      | none => .error ("Error: Server '" ++ serverName ++ "' not found")
      | some info =>
        match info.tools.find? (fun t => t.title == toolName) with
        | some tool =>
            (getToolsOverviewEntries si rest).map
              (fun tl => mkOverviewEntry serverName tool :: tl)
        | none => getToolsOverviewEntries si rest
    | _ =>
        .error ("Error: Invalid tool path format '" ++ p ++
          "'. Expected 'serverName/toolName'")

/-- The entry, if any, that a single path contributes to the result
array (assuming processing reaches it without a throw). -/
def entryForPath (si : ServersInfoMap) (p : String) : Option ToolOverviewEntry :=
  match jsSplit '/' p with
  | [serverName, toolName] =>
    match lookupServer si serverName with
    | none => none
    | some info =>
        (info.tools.find? (fun t => t.title == toolName)).map
          (mkOverviewEntry serverName)
  | _ => none

/-- A path that neither throw can hit: it splits into exactly two parts
and names a registered server. -/
def pathWellFormed (si : ServersInfoMap) (p : String) : Prop :=
  ∃ serverName toolName info, jsSplit '/' p = [serverName, toolName] ∧
    lookupServer si serverName = some info

/-- The standardized envelope literal in the stub template of
`SandboxManagerImpl.generateToolFile` (src/src/index.ts:241-250):
`content: response.content || []`, `isError: response.isError || false`,
and a `_meta` object carrying the server name and the downstream wire
tool name. -/
def makeEnvelope (serverName toolName : String) (rawResponse : JSValue) :
    JSValue :=
  .obj [("content", jsOr (jsGet rawResponse "content") (.arr [])),
        ("isError", jsOr (jsGet rawResponse "isError") (.bool false)),
        ("_meta", .obj [("serverName", .str serverName),
                        ("toolName", .str toolName)])]

/-- Definition following the claim's words, for comparison with the
source-derived `makeEnvelope`: the envelope with nullish (`??`)
defaulting, `\x7b content: rawResponse.content ?? [], isError:
rawResponse.isError ?? false, _meta: \x7bserverName, toolName\x7d \x7d`. -/
def specEnvelope (serverName toolName : String) (rawResponse : JSValue) :
    JSValue :=
  .obj [("content", jsNullishOr (jsGet rawResponse "content") (.arr [])),
        ("isError", jsNullishOr (jsGet rawResponse "isError") (.bool false)),
        ("_meta", .obj [("serverName", .str serverName),
                        ("toolName", .str toolName)])]

/-- Runtime behavior of the stub generated by
`SandboxManagerImpl.generateToolFile` (src/src/index.ts:211-257) once
the downstream `callTool` has produced `rawResponse`: throw when the
server is missing from `serversInfo` or its client handle is null, push
`\x7b toolName, output \x7d` into the server's cache bucket, and return
the standardized envelope. -/
def stubImplRun (serverName : String) (tool : ToolF) (si : ServersInfoMap)
    (rawResponse : JSValue) (cache : ToolOutputCache) :
    Except String (JSValue × ToolOutputCache) :=
  match lookupServer si serverName with
  | none => .error ("Server " ++ serverName ++ " not exist")
  | some info =>
    match info.client with
    | none => .error ("Client for server " ++ serverName ++ " not connected")
    | some _ =>
        .ok (makeEnvelope serverName tool.name rawResponse,
             pushCache cache serverName tool.name rawResponse)

/-- Runtime behavior of the stub generated by the legacy
`SandboxManager.generateToolFile` (src/src/sandboxManager.ts:54-92):
same guards, but the downstream response is returned unchanged and
nothing is pushed into any cache. -/
def stubLegacyRun (serverName : String) (_tool : ToolF) (si : ServersInfoMap)
    (rawResponse : JSValue) : Except String JSValue :=
  match lookupServer si serverName with
  | none => .error ("Server " ++ serverName ++ " not exist")
  | some info =>
    match info.client with
    | none => .error ("Client for server " ++ serverName ++ " not connected")
    | some _ => .ok rawResponse

/-- One item of an MCP response's `content` array. -/
structure ContentItem where
  type : String
  text : String
deriving Repr, DecidableEq

/-- Upstream MCP tool response envelope; `isError` is `none` when the
source object literal carries no `isError` property. -/
structure ToolResponse where
  content : List ContentItem
  isError : Option Bool
deriving Repr, DecidableEq

/-- The fields of a JavaScript error as the handlers read them:
`message` and the `String(error)` rendering. -/
structure JsError where
  message : String
  asString : String
deriving Repr, DecidableEq

/-- `ToolCallHandler.formatError` (handler source lines 168-178):
`error.message || String(error)`, wrapped as a text content item
prefixed with `Error: `; the returned object literal has no `isError`
property. -/
def formatError (e : JsError) : ToolResponse :=
  let errorMessage := if e.message ≠ "" then e.message else e.asString
  { content := [{ type := "text", text := "Error: " ++ errorMessage }]
    isError := none }

/-- The catch branch of the `run_functions_code` case in
`McpOfMcps.setupHandlers` (src/src/mcpOfMcps.ts:128-149): the sandbox
error is converted to a text response prefixed with
`Error executing code: `, again without an `isError` property. -/
def runCodeErrorResponse (msg : String) : ToolResponse :=
  { content := [{ type := "text", text := "Error executing code: " ++ msg }]
    isError := none }

/-- Fixture: the `weather/get_forecast` tool of the spec's end-to-end
scenarios. -/
def toolForecast : ToolF :=
  { name := "get_forecast", title := "get_forecast"
    description := "weather predictions", inputSchema := .obj []
    outputSchema := none }

/-- Fixture: the weather server's client handle. -/
def weatherClient : ClientModel :=
  { instructions := none, listToolsResult := .ok [toolForecast] }

/-- Fixture: the registered weather server. -/
def weatherInfo : ServerInfoModel :=
  { name := "weather", client := some weatherClient, tools := [toolForecast] }

/-- Fixture: a registry holding only the weather server. -/
def weatherRegistry : ServersInfoMap := [("weather", weatherInfo)]

/-- C6: for a registry with server "weather" owning the tool titled
"get_forecast", `getToolsOverview ["weather/get_forecast"]` yields the
one-element array whose `exampleUsage` is exactly the require/export
template for that tool. -/
theorem c6_example_usage :
    getToolsOverviewEntries weatherRegistry ["weather/get_forecast"] =
      .ok [mkOverviewEntry "weather" toolForecast] ∧
    (mkOverviewEntry "weather" toolForecast).exampleUsage =
      "const get_forecast = require('./weather/get_forecast.cjs');\nmodule.exports = get_forecast(\x7b /* your parameters here */ \x7d);" ∧
    [mkOverviewEntry "weather" toolForecast].length = 1 :=
  ⟨rfl, rfl, rfl⟩

/-- C10: `ServersRegistry.getTool` throws for an unregistered server
rather than returning undefined, and returns undefined exactly when the
server is registered but owns no tool with the given wire name. -/
theorem c10_getTool_unknown_server (reg : ServersInfoMap) (s t : String) :
    (hasServer reg s = false →
      getToolFromRegistry reg s t =
        .error ("Server '" ++ s ++ "' not found in registry")) ∧
    (getToolFromRegistry reg s t = .ok none ↔
      ∃ info, lookupServer reg s = some info ∧
        ∀ tool ∈ info.tools, tool.name ≠ t) := by
  constructor
  · intro h
    unfold hasServer at h
    unfold getToolFromRegistry
    cases hl : lookupServer reg s with
    | none => rfl
    | some info => rw [hl] at h; simp at h
  · unfold getToolFromRegistry
    cases hl : lookupServer reg s with
    | none =>
        constructor
        · intro h; exact absurd h (by simp)
        · rintro ⟨info, hinfo, -⟩; exact absurd hinfo (by simp)
    | some info =>
        constructor
        · intro h
          refine ⟨info, rfl, ?_⟩
          have hfind : info.tools.find? (fun tool => tool.name == t) = none := by
            simpa using h
          intro tool hmem
          have := List.find?_eq_none.mp hfind tool hmem
          simpa using this
        · rintro ⟨info', hinfo', hall⟩
          cases hinfo'
          have hfind : info.tools.find? (fun tool => tool.name == t) = none := by
            apply List.find?_eq_none.mpr
            intro tool hmem
            simpa using hall tool hmem
          simp [hfind]

/-- C10 witness: for the empty registry and `("x", "y")`, `getTool`
fails with the registry error. -/
theorem c10_getTool_unknown_server_witness :
    hasServer ([] : ServersInfoMap) "x" = false ∧
    getToolFromRegistry ([] : ServersInfoMap) "x" "y" =
      .error ("Server '" ++ "x" ++ "' not found in registry") :=
  ⟨rfl, (c10_getTool_unknown_server ([] : ServersInfoMap) "x" "y").1 rfl⟩

/-- C3 (amended): every handler error is converted to a response rather
than thrown; `formatError` wraps `error.message || String(error)` as a
text item prefixed `Error: `, the `run_functions_code` catch uses the
prefix `Error executing code: `, and neither response object carries an
`isError` property. -/
theorem c3_error_envelope (e : JsError) (msg : String) :
    (formatError e).content =
      [{ type := "text",
         text := "Error: " ++ (if e.message ≠ "" then e.message else e.asString) }] ∧
    (formatError e).isError = none ∧
    (runCodeErrorResponse msg).content =
      [{ type := "text", text := "Error executing code: " ++ msg }] ∧
    (runCodeErrorResponse msg).isError = none :=
  ⟨rfl, rfl, rfl, rfl⟩

/-- C3 counterexample: for the error with message "boom", the converted
response carries no `isError` flag at all, contradicting the claimed
`isError: true`. -/
theorem c3_counterexample :
    formatError { message := "boom", asString := "Error: boom" } =
      { content := [{ type := "text", text := "Error: boom" }], isError := none } ∧
    (formatError { message := "boom", asString := "Error: boom" }).isError ≠
      some true := by
  constructor
  · rfl
  · intro h; simp [formatError] at h

/-- C8: a sandbox run whose exported value is a thenable (the promise
values of the model) is awaited — the dispatcher's outcome is the
promise's settlement — while any non-thenable exported value is
returned as is. -/
theorem c8_promise_awaited (st : SandboxState) (s : Except String JSValue)
    (v : JSValue) (hv : v.hasCallableThen = false) :
    (execute st (.ok (.promise s))).1 = s ∧
    (execute st (.ok v)).1 = .ok v := by
  constructor
  · unfold execute
    cases s with
    | ok r => rfl
    | error e => rfl
  · simp only [execute, hv, Bool.and_false]
    simp

/-- Fixture: an empty sandbox state. -/
def emptySandboxState : SandboxState :=
  { toolDatabase := [], serversInfo := [], toolOutputCache := [] }

/-- C8 witness: a resolved promise is awaited to its resolution and a
plain string is returned as is. -/
theorem c8_promise_awaited_witness :
    JSValue.hasCallableThen (.str "done") = false ∧
    (execute emptySandboxState (.ok (.promise (.ok (.str "v"))))).1 =
      .ok (.str "v") ∧
    (execute emptySandboxState (.ok (.str "done"))).1 = .ok (.str "done") :=
  ⟨rfl,
   (c8_promise_awaited emptySandboxState (.ok (.str "v")) (.str "done") rfl).1,
   (c8_promise_awaited emptySandboxState (.ok (.str "v")) (.str "done") rfl).2⟩

/-- Fixture: a tool whose downstream wire name differs from its
sanitized title. -/
def toolWire : ToolF :=
  { name := "get-forecast", title := "get_forecast"
    description := "weather predictions", inputSchema := .obj []
    outputSchema := none }

/-- C7 (amended): when the server is present and its client connected,
a stub generated by `SandboxManagerImpl.generateToolFile` pushes the
raw response into the cache and returns the envelope with JavaScript
`||` defaulting (the default applies to every falsy field value, not
only nullish ones), carrying the downstream wire name in `_meta`; a
stub generated by the legacy `SandboxManager.generateToolFile` returns
the downstream response unchanged. -/
theorem c7_stub_envelope (serverName : String) (tool : ToolF)
    (si : ServersInfoMap) (info : ServerInfoModel) (c : ClientModel)
    (raw : JSValue) (cache : ToolOutputCache)
    (h1 : lookupServer si serverName = some info)
    (h2 : info.client = some c) :
    stubImplRun serverName tool si raw cache =
      .ok (.obj [("content",
                    if (jsGet raw "content").truthy then jsGet raw "content"
                    else .arr []),
                 ("isError",
                    if (jsGet raw "isError").truthy then jsGet raw "isError"
                    else .bool false),
                 ("_meta", .obj [("serverName", .str serverName),
                                 ("toolName", .str tool.name)])],
           pushCache cache serverName tool.name raw) ∧
    stubLegacyRun serverName tool si raw = .ok raw := by
  simp only [stubImplRun, stubLegacyRun, h1, h2]
  exact ⟨rfl, trivial⟩

/-- C7 witness: both stub shapes evaluated on the weather fixture with
a tool whose wire name and title differ. -/
theorem c7_stub_envelope_witness :
    lookupServer weatherRegistry "weather" = some weatherInfo ∧
    weatherInfo.client = some weatherClient ∧
    stubImplRun "weather" toolWire weatherRegistry
        (.obj [("content", .arr [.str "ok"])]) [("weather", [])] =
      .ok (.obj [("content",
                    if (jsGet (.obj [("content", .arr [.str "ok"])]) "content").truthy
                    then jsGet (.obj [("content", .arr [.str "ok"])]) "content"
                    else .arr []),
                 ("isError",
                    if (jsGet (.obj [("content", .arr [.str "ok"])]) "isError").truthy
                    then jsGet (.obj [("content", .arr [.str "ok"])]) "isError"
                    else .bool false),
                 ("_meta", .obj [("serverName", .str "weather"),
                                 ("toolName", .str toolWire.name)])],
           pushCache [("weather", [])] "weather" toolWire.name
             (.obj [("content", .arr [.str "ok"])])) :=
  ⟨rfl, rfl,
   (c7_stub_envelope "weather" toolWire weatherRegistry weatherInfo
      weatherClient (.obj [("content", .arr [.str "ok"])]) [("weather", [])]
      rfl rfl).1⟩

/-- Fixture: a downstream response whose `content` is falsy (the empty
string) but not nullish. -/
def rawFalsyContent : JSValue := .obj [("content", .str ""), ("isError", .null)]

/-- C7 counterexample: the legacy stub returns the raw downstream
response, which is not the claimed envelope, and even the
SandboxManagerImpl template deviates from the claimed `??` defaulting:
a falsy non-nullish `content` (the empty string) is replaced by `[]`
where `rawResponse.content ?? []` would keep it. -/
theorem c7_counterexample :
    stubLegacyRun "weather" toolForecast weatherRegistry rawFalsyContent =
      .ok rawFalsyContent ∧
    rawFalsyContent ≠ specEnvelope "weather" toolForecast.name rawFalsyContent ∧
    jsGet (makeEnvelope "weather" toolForecast.name rawFalsyContent) "content" =
      .arr [] ∧
    jsGet (specEnvelope "weather" toolForecast.name rawFalsyContent) "content" =
      .str "" ∧
    JSValue.arr [] ≠ JSValue.str "" := by
  refine ⟨rfl, ?_, rfl, rfl, by simp⟩
  intro h
  simp [rawFalsyContent, specEnvelope, jsNullishOr, jsGet] at h

/-- C2 (amended): only when the script's exported value resolves
successfully does the schema-inference drain process every captured
cache entry, after which the cache is cleared and re-seeded with an
empty bucket per registered server; when the run throws or the awaited
promise rejects, the error is rethrown and neither the drain nor the
cache reset runs. -/
theorem c2_execute_drain (st : SandboxState) (v : JSValue) (e : String)
    (hv : v.hasCallableThen = false) :
    execute st (.error e) = (.error e, st) ∧
    execute st (.ok (.promise (.error e))) = (.error e, st) ∧
    execute st (.ok v) =
      (.ok v,
       { toolDatabase :=
           (updateOutputSchema st.toolDatabase st.serversInfo st.toolOutputCache).1
         serversInfo :=
           (updateOutputSchema st.toolDatabase st.serversInfo st.toolOutputCache).2
         toolOutputCache :=
           clearAndSetToolOutCache
             (updateOutputSchema st.toolDatabase st.serversInfo st.toolOutputCache).2 }) ∧
    execute st (.ok (.promise (.ok v))) =
      (.ok v,
       { toolDatabase :=
           (updateOutputSchema st.toolDatabase st.serversInfo st.toolOutputCache).1
         serversInfo :=
           (updateOutputSchema st.toolDatabase st.serversInfo st.toolOutputCache).2
         toolOutputCache :=
           clearAndSetToolOutCache
             (updateOutputSchema st.toolDatabase st.serversInfo st.toolOutputCache).2 }) := by
  refine ⟨rfl, rfl, ?_, rfl⟩
  simp only [execute, hv, Bool.and_false]
  rfl

/-- Fixture: a sandbox state holding one registered server, a row whose
schema was not supplied by the server, and one captured output. -/
def c2StateEx : SandboxState :=
  { toolDatabase :=
      [{ serverName := "weather", toolName := "get_forecast"
         outputSchema := none, originalOutputSchema := false }]
    serversInfo := weatherRegistry
    toolOutputCache := [("weather", [("get_forecast", .str "out")])] }

/-- C2 witness: a successful run on the fixture state drains and
re-seeds. -/
theorem c2_execute_drain_witness :
    JSValue.hasCallableThen (.str "done") = false ∧
    execute c2StateEx (.ok (.str "done")) =
      (.ok (.str "done"),
       { toolDatabase :=
           (updateOutputSchema c2StateEx.toolDatabase c2StateEx.serversInfo
             c2StateEx.toolOutputCache).1
         serversInfo :=
           (updateOutputSchema c2StateEx.toolDatabase c2StateEx.serversInfo
             c2StateEx.toolOutputCache).2
         toolOutputCache :=
           clearAndSetToolOutCache
             (updateOutputSchema c2StateEx.toolDatabase c2StateEx.serversInfo
               c2StateEx.toolOutputCache).2 }) :=
  ⟨rfl, (c2_execute_drain c2StateEx (.str "done") "boom" rfl).2.2.1⟩

/-- C2 counterexample: when the run fails, the captured entry is still
in the cache afterwards — the cache was neither drained into the store
nor re-seeded with empty buckets, contradicting the claim's
"whether ... resolves successfully or the run fails". -/
theorem c2_counterexample :
    (execute c2StateEx (.error "boom")).2.toolOutputCache =
      [("weather", [("get_forecast", .str "out")])] ∧
    (execute c2StateEx (.error "boom")).2.toolOutputCache ≠
      clearAndSetToolOutCache (execute c2StateEx (.error "boom")).2.serversInfo ∧
    (execute c2StateEx (.error "boom")).2.toolDatabase =
      c2StateEx.toolDatabase := by
  refine ⟨rfl, ?_, rfl⟩
  intro h
  have h2 : [("weather", [(("get_forecast" : String), JSValue.str "out")])] =
      ([("weather", ([] : List (String × JSValue)))] : ToolOutputCache) := h
  simp at h2

/-- A generic foldl invariant: a property preserved by every step is
preserved by the whole fold. -/
theorem foldlPreserves {α β : Type} (P : α → Prop) (f : α → β → α)
    (hstep : ∀ a b, P a → P (f a b)) :
    ∀ (l : List β) (a : α), P a → P (l.foldl f a) := by
  intro l
  induction l with
  | nil => intro a ha; exact ha
  | cons b bs ih => intro a ha; exact ih (f a b) (hstep a b ha)

/-- A row found by `dbGetTool` carries the queried key. -/
theorem dbGetTool_key (db : ToolDatabase) (s t : String) (row : DbRow)
    (h : dbGetTool db s t = some row) :
    row.serverName = s ∧ row.toolName = t := by
  have hp := List.find?_some h
  simp only [Bool.and_eq_true, beq_iff_eq] at hp
  exact hp

/-- `dbUpdateTool` on one key leaves lookups of any other key
untouched. -/
theorem dbGetTool_dbUpdateTool_ne (db : ToolDatabase) (s t s' t' : String)
    (sch : String) (g : Bool) (h : ¬(s' = s ∧ t' = t)) :
    dbGetTool (dbUpdateTool db s' t' sch g) s t = dbGetTool db s t := by
  unfold dbGetTool dbUpdateTool
  rw [List.find?_map]
  have hpred : ∀ r : DbRow,
      ((fun r : DbRow => r.serverName == s && r.toolName == t) ∘
        (fun r : DbRow =>
          if r.serverName == s' && r.toolName == t' then
            { r with outputSchema := some sch, originalOutputSchema := g }
          else r)) r =
      (r.serverName == s && r.toolName == t) := by
    intro r
    by_cases hk : (r.serverName == s' && r.toolName == t') = true
    · simp [Function.comp, hk]
    · simp [Function.comp, hk]
  rw [funext hpred]
  cases hfind : db.find? (fun r => r.serverName == s && r.toolName == t) with
  | none => rfl
  | some r0 =>
      have hp := List.find?_some hfind
      simp only [Bool.and_eq_true, beq_iff_eq] at hp
      have hk : (r0.serverName == s' && r0.toolName == t') = false := by
        rw [hp.1, hp.2]
        rcases Decidable.not_and_iff_or_not.mp h with h1 | h1
        · have hb : (s == s') = false := by
            simp only [beq_eq_false_iff_ne, ne_eq]
            exact fun he => h1 he.symm
          simp [hb]
        · have hb : (t == t') = false := by
            simp only [beq_eq_false_iff_ne, ne_eq]
            exact fun he => h1 he.symm
          simp [hb]
      simp [hk]
      intro h1 h2
      rw [h1, h2] at hk
      simp at hk

/-- One drain iteration never disturbs a row whose schema came from the
downstream server. -/
theorem updateEntry_preserves_original (db : ToolDatabase)
    (si : ServersInfoMap) (s0 t0 : String) (out : JSValue) (s t : String)
    (row : DbRow) (hrow : dbGetTool db s t = some row)
    (horig : row.originalOutputSchema = true) :
    dbGetTool (updateEntry db si s0 t0 out).1 s t = some row := by
  unfold updateEntry
  simp only [convertOutputToSchema]
  cases hget : dbGetTool db s0 t0 with
  | none => simp only [hget]; exact hrow
  | some row0 =>
    by_cases h0 : row0.originalOutputSchema = true
    · simp only [hget, h0, if_true]; exact hrow
    · simp only [hget, h0, if_false, Bool.false_eq_true]
      by_cases hk : s0 = s ∧ t0 = t
      · exfalso
        rw [hk.1, hk.2] at hget
        rw [hrow] at hget
        cases hget
        exact h0 horig
      · rw [dbGetTool_dbUpdateTool_ne db s t s0 t0 (jsonStringify (schemaOf out))
          false hk]
        exact hrow

/-- C1: the schema-inference drain never overwrites a store row whose
`originalOutputSchema` is true — such a row survives a whole drain
unchanged — and a single drain step is a complete no-op (no store write,
no in-memory mirror) unless the existing row has
`originalOutputSchema = false`. -/
theorem c1_drain_preserves_original (db : ToolDatabase) (si : ServersInfoMap)
    (cache : ToolOutputCache) (s t : String) (row : DbRow)
    (db' : ToolDatabase) (si' : ServersInfoMap) (s0 t0 : String) (out : JSValue)
    (h1 : dbGetTool db s t = some row) (h2 : row.originalOutputSchema = true)
    (h3 : ∀ r, dbGetTool db' s0 t0 = some r → r.originalOutputSchema = true) :
    dbGetTool (updateOutputSchema db si cache).1 s t = some row ∧
    updateEntry db' si' s0 t0 out = (db', si') := by
  constructor
  · have hstep : ∀ (acc : ToolDatabase × ServersInfoMap)
        (bucket : String × List (String × JSValue)),
        dbGetTool acc.1 s t = some row →
        dbGetTool ((bucket.2.foldl
          (fun acc2 entry => updateEntry acc2.1 acc2.2 bucket.1 entry.1 entry.2)
          acc)).1 s t = some row := by
      intro acc bucket hacc
      exact foldlPreserves (fun p => dbGetTool p.1 s t = some row) _
        (fun a b ha =>
          updateEntry_preserves_original a.1 a.2 bucket.1 b.1 b.2 s t row ha h2)
        bucket.2 acc hacc
    exact foldlPreserves (fun p => dbGetTool p.1 s t = some row) _ hstep
      cache (db, si) h1
  · unfold updateEntry
    simp only [convertOutputToSchema]
    cases hget : dbGetTool db' s0 t0 with
    | none => simp only [hget]
    | some r => simp only [hget, h3 r hget, if_true]

/-- Fixture: a store whose weather row carries a server-supplied
schema. -/
def c1DbEx : ToolDatabase :=
  [{ serverName := "weather", toolName := "get_forecast"
     outputSchema := some "\x7b\x7d", originalOutputSchema := true }]

/-- Fixture: the row of `c1DbEx`. -/
def c1RowEx : DbRow :=
  { serverName := "weather", toolName := "get_forecast"
    outputSchema := some "\x7b\x7d", originalOutputSchema := true }

/-- C1 witness: draining a captured weather output leaves the
server-supplied row intact, and the single step on it is a no-op. -/
theorem c1_drain_preserves_original_witness :
    dbGetTool c1DbEx "weather" "get_forecast" = some c1RowEx ∧
    c1RowEx.originalOutputSchema = true ∧
    dbGetTool (updateOutputSchema c1DbEx weatherRegistry
        [("weather", [("get_forecast", .str "out")])]).1
      "weather" "get_forecast" = some c1RowEx ∧
    updateEntry c1DbEx weatherRegistry "weather" "get_forecast" (.str "out") =
      (c1DbEx, weatherRegistry) := by
  refine ⟨by decide, by decide, ?_, ?_⟩
  · exact (c1_drain_preserves_original c1DbEx weatherRegistry
      [("weather", [("get_forecast", .str "out")])] "weather" "get_forecast"
      c1RowEx c1DbEx weatherRegistry "weather" "get_forecast" (.str "out")
      (by decide) (by decide)
      (fun r hr => by
        rw [show dbGetTool c1DbEx "weather" "get_forecast" = some c1RowEx
          from by decide] at hr
        cases hr
        rfl)).1
  · exact (c1_drain_preserves_original c1DbEx weatherRegistry
      [("weather", [("get_forecast", .str "out")])] "weather" "get_forecast"
      c1RowEx c1DbEx weatherRegistry "weather" "get_forecast" (.str "out")
      (by decide) (by decide)
      (fun r hr => by
        rw [show dbGetTool c1DbEx "weather" "get_forecast" = some c1RowEx
          from by decide] at hr
        cases hr
        rfl)).2

/-- C4 (amended): `getServersOverview` joins, with newlines, the
lexicographically sorted flat list of all collected lines — header
lines `# <server> mcp server nstructions: <instructions>` only for
servers whose instructions are truthy, plus one `<server>/<title>` line
per tool — with no standing hint appended; the output is deterministic
in the collected lines (sorted permutation). -/
theorem c4_overview_sorted (si : ServersInfoMap) :
    getServersOverview si = String.intercalate "\n" (overviewLines si) ∧
    List.Sorted jsLe (overviewLines si) ∧
    (overviewLines si).Perm (rawOverviewLines si) :=
  ⟨rfl, List.sorted_insertionSort _ _, List.perm_insertionSort _ _⟩

/-- Fixture: one server with instructions "x" and one tool titled
"t". -/
def c4Registry : ServersInfoMap :=
  [("a", { name := "a"
           client := some { instructions := some "x", listToolsResult := .ok [] }
           tools := [{ name := "t", title := "t", description := ""
                       inputSchema := .obj [], outputSchema := none }] })]

/-- C4 counterexample: on the fixture the produced document is exactly
the two sorted lines with the header spelled `nstructions`; the line
the claim requires — `# a mcp server instructions: x` — is absent, and
no line mentions `get_tools_overview`, so no standing hint is
appended. -/
theorem c4_counterexample :
    getServersOverview c4Registry = "# a mcp server nstructions: x\na/t" ∧
    ("# a mcp server instructions: x" ∈ jsSplit '\n' (getServersOverview c4Registry)) = False ∧
    jsSplit '\n' (getServersOverview c4Registry) =
      ["# a mcp server nstructions: x", "a/t"] := by
  refine ⟨by decide, by decide, by decide⟩

/-- A malformed element anywhere in the path list forces the whole call
to fail. -/
theorem toolsOverview_error_of_malformed (si : ServersInfoMap) :
    ∀ (paths : List String) (p : String), p ∈ paths →
      (jsSplit '/' p).length ≠ 2 →
      ∃ msg, getToolsOverviewEntries si paths = .error msg := by
  intro paths
  induction paths with
  | nil => intro p hp; cases hp
  | cons q rest ih =>
    intro p hp hlen
    rcases List.mem_cons.mp hp with rfl | hp'
    · cases hq : jsSplit '/' p with
      | nil => exact ⟨_, by simp only [getToolsOverviewEntries, hq]; rfl⟩
      | cons a l =>
        cases l with
        | nil => exact ⟨_, by simp only [getToolsOverviewEntries, hq]; rfl⟩
        | cons b l2 =>
          cases l2 with
          | nil => exact absurd (by simp [hq]) hlen
          | cons c l3 => exact ⟨_, by simp only [getToolsOverviewEntries, hq]; rfl⟩
    · obtain ⟨m, hm⟩ := ih p hp' hlen
      cases hq : jsSplit '/' q with
      | nil => exact ⟨_, by simp only [getToolsOverviewEntries, hq]; rfl⟩
      | cons a l =>
        cases l with
        | nil => exact ⟨_, by simp only [getToolsOverviewEntries, hq]; rfl⟩
        | cons b l2 =>
          cases l2 with
          | cons c l3 => exact ⟨_, by simp only [getToolsOverviewEntries, hq]; rfl⟩
          | nil =>
            cases hlook : lookupServer si a with
            | none =>
                exact ⟨_, by simp only [getToolsOverviewEntries, hq, hlook]; rfl⟩
            | some info =>
              cases hfind : info.tools.find? (fun t => t.title == b) with
              | some tool =>
                  refine ⟨m, ?_⟩
                  simp only [getToolsOverviewEntries, hq, hlook, hfind, hm,
                    Except.map]
              | none =>
                  refine ⟨m, ?_⟩
                  simp only [getToolsOverviewEntries, hq, hlook, hfind, hm]

/-- An element naming an unregistered server anywhere in the path list
forces the whole call to fail. -/
theorem toolsOverview_error_of_unknown_server (si : ServersInfoMap) :
    ∀ (paths : List String) (p a b : String), p ∈ paths →
      jsSplit '/' p = [a, b] → lookupServer si a = none →
      ∃ msg, getToolsOverviewEntries si paths = .error msg := by
  intro paths
  induction paths with
  | nil => intro p a b hp; cases hp
  | cons q rest ih =>
    intro p a b hp hsplit hlook
    rcases List.mem_cons.mp hp with rfl | hp'
    · exact ⟨_, by simp only [getToolsOverviewEntries, hsplit, hlook]; rfl⟩
    · obtain ⟨m, hm⟩ := ih p a b hp' hsplit hlook
      cases hq : jsSplit '/' q with
      | nil => exact ⟨_, by simp only [getToolsOverviewEntries, hq]; rfl⟩
      | cons a' l =>
        cases l with
        | nil => exact ⟨_, by simp only [getToolsOverviewEntries, hq]; rfl⟩
        | cons b' l2 =>
          cases l2 with
          | cons c l3 => exact ⟨_, by simp only [getToolsOverviewEntries, hq]; rfl⟩
          | nil =>
            cases hlook' : lookupServer si a' with
            | none =>
                exact ⟨_, by simp only [getToolsOverviewEntries, hq, hlook']; rfl⟩
            | some info =>
              cases hfind : info.tools.find? (fun t => t.title == b') with
              | some tool =>
                  refine ⟨m, ?_⟩
                  simp only [getToolsOverviewEntries, hq, hlook', hfind, hm,
                    Except.map]
              | none =>
                  refine ⟨m, ?_⟩
                  simp only [getToolsOverviewEntries, hq, hlook', hfind, hm]

/-- When every path before the offender is well formed, the call fails
with the structured error naming the offending path. -/
theorem toolsOverview_first_offender (si : ServersInfoMap) :
    ∀ (pre : List String) (p : String) (post : List String),
      (∀ q ∈ pre, pathWellFormed si q) → (jsSplit '/' p).length ≠ 2 →
      getToolsOverviewEntries si (pre ++ p :: post) =
        .error ("Error: Invalid tool path format '" ++ p ++
          "'. Expected 'serverName/toolName'") := by
  intro pre
  induction pre with
  | nil =>
    intro p post _ hlen
    simp only [List.nil_append]
    cases hq : jsSplit '/' p with
    | nil => simp only [getToolsOverviewEntries, hq]
    | cons a l =>
      cases l with
      | nil => simp only [getToolsOverviewEntries, hq]
      | cons b l2 =>
        cases l2 with
        | nil => exact absurd (by simp [hq]) hlen
        | cons c l3 => simp only [getToolsOverviewEntries, hq]
  | cons q pre' ih =>
    intro p post hwf hlen
    obtain ⟨a, b, info, hsplit, hlook⟩ := hwf q (List.mem_cons_self _ _)
    have hrest := ih p post (fun r hr => hwf r (List.mem_cons_of_mem _ hr)) hlen
    cases hfind : info.tools.find? (fun t => t.title == b) with
    | some tool =>
        simp only [List.cons_append, getToolsOverviewEntries, hsplit, hlook,
          hfind, List.append_eq, hrest, Except.map]
    | none =>
        simp only [List.cons_append, getToolsOverviewEntries, hsplit, hlook,
          hfind, List.append_eq, hrest]

/-- When every path is well formed the call succeeds, unknown tool
titles being skipped while the rest of the array is still produced. -/
theorem toolsOverview_ok (si : ServersInfoMap) :
    ∀ paths : List String, (∀ p ∈ paths, pathWellFormed si p) →
      getToolsOverviewEntries si paths =
        .ok (paths.filterMap (entryForPath si)) := by
  intro paths
  induction paths with
  | nil => intro _; rfl
  | cons q rest ih =>
    intro hwf
    obtain ⟨a, b, info, hsplit, hlook⟩ := hwf q (List.mem_cons_self _ _)
    have hrest := ih (fun r hr => hwf r (List.mem_cons_of_mem _ hr))
    cases hfind : info.tools.find? (fun t => t.title == b) with
    | some tool =>
        simp only [getToolsOverviewEntries, hsplit, hlook, hfind, hrest,
          Except.map, List.filterMap_cons, entryForPath]
        simp [hsplit, hlook, hfind]
    | none =>
        simp only [getToolsOverviewEntries, hsplit, hlook, hfind, hrest,
          List.filterMap_cons, entryForPath]
        simp [hsplit, hlook, hfind]

/-- C5: `getToolsOverview` fails when some element does not split into
exactly two `/`-separated parts (and when it is the first offender, the
error names that path); fails when some element names an unregistered
server; and when every element is well formed it succeeds with the
array that skips unknown tool titles while the remaining elements are
still processed. -/
theorem c5_tools_overview (si : ServersInfoMap) (paths : List String) :
    (∀ p ∈ paths, (jsSplit '/' p).length ≠ 2 →
        ∃ msg, getToolsOverviewEntries si paths = .error msg) ∧
    (∀ p a b, p ∈ paths → jsSplit '/' p = [a, b] → lookupServer si a = none →
        ∃ msg, getToolsOverviewEntries si paths = .error msg) ∧
    (∀ pre p post, paths = pre ++ p :: post →
        (∀ q ∈ pre, pathWellFormed si q) → (jsSplit '/' p).length ≠ 2 →
        getToolsOverviewEntries si paths =
          .error ("Error: Invalid tool path format '" ++ p ++
            "'. Expected 'serverName/toolName'")) ∧
    ((∀ p ∈ paths, pathWellFormed si p) →
        getToolsOverviewEntries si paths =
          .ok (paths.filterMap (entryForPath si))) := by
  refine ⟨fun p hp hl => toolsOverview_error_of_malformed si paths p hp hl,
          fun p a b hp hs hl =>
            toolsOverview_error_of_unknown_server si paths p a b hp hs hl,
          fun pre p post heq hwf hl =>
            heq ▸ toolsOverview_first_offender si pre p post hwf hl,
          fun hwf => toolsOverview_ok si paths hwf⟩

/-- C5 witness: a malformed path fails naming it, an unknown server
fails, and a known server with an unknown title is skipped while the
remaining path still produces its entry. -/
theorem c5_tools_overview_witness :
    getToolsOverviewEntries weatherRegistry ["bad"] =
      .error ("Error: Invalid tool path format '" ++ "bad" ++
        "'. Expected 'serverName/toolName'") ∧
    (∃ msg, getToolsOverviewEntries weatherRegistry ["nope/t"] =
      .error msg) ∧
    getToolsOverviewEntries weatherRegistry
        ["weather/unknown", "weather/get_forecast"] =
      .ok (["weather/unknown", "weather/get_forecast"].filterMap
        (entryForPath weatherRegistry)) ∧
    ["weather/unknown", "weather/get_forecast"].filterMap
        (entryForPath weatherRegistry) =
      [mkOverviewEntry "weather" toolForecast] := by
  refine ⟨?_, ?_, ?_, rfl⟩
  · exact (c5_tools_overview weatherRegistry ["bad"]).2.2.1 [] "bad" []
      rfl (by intro q hq; cases hq) (by decide)
  · exact (c5_tools_overview weatherRegistry ["nope/t"]).2.1 "nope/t"
      "nope" "t" (List.mem_cons_self _ _) rfl rfl
  · exact (c5_tools_overview weatherRegistry
      ["weather/unknown", "weather/get_forecast"]).2.2.2
      (by
        intro p hp
        rcases List.mem_cons.mp hp with rfl | hp'
        · exact ⟨"weather", "unknown", weatherInfo, rfl, rfl⟩
        · rcases List.mem_cons.mp hp' with rfl | hp''
          · exact ⟨"weather", "get_forecast", weatherInfo, rfl, rfl⟩
          · cases hp'')

/-- Any `registerServer` failure leaves the registry map untouched. -/
theorem registerServer_error_state (reg : ServersInfoMap)
    (conns : List (String × ClientModel)) (n : String) (e : String)
    (h : (registerServer reg conns n).1 = .error e) :
    (registerServer reg conns n).2 = reg := by
  by_cases h1 : hasServer reg n
  · simp [registerServer, h1]
  · cases hl : lookupConnection conns n with
    | none => simp [registerServer, h1, hl]
    | some c =>
      cases ht : c.listToolsResult with
      | error msg => simp [registerServer, h1, hl, ht]
      | ok tools => simp [registerServer, h1, hl, ht] at h

/-- Registration of any server never removes an existing entry. -/
theorem registerServer_mono (reg : ServersInfoMap)
    (conns : List (String × ClientModel)) (m n : String)
    (h : hasServer reg n = true) :
    hasServer ((registerServer reg conns m).2) n = true := by
  by_cases h1 : hasServer reg m
  · simpa [registerServer, h1] using h
  · cases hl : lookupConnection conns m with
    | none => simpa [registerServer, h1, hl] using h
    | some c =>
      cases ht : c.listToolsResult with
      | error msg => simpa [registerServer, h1, hl, ht] using h
      | ok tools =>
        simp only [registerServer, h1, hl, ht, if_false, Bool.false_eq_true]
        unfold hasServer lookupServer at h ⊢
        rw [List.find?_append]
        cases hf : reg.find? (fun e => e.1 == n) with
        | some x => simp
        | none => rw [hf] at h; simp at h

/-- Registering server `m` does not change whether a different server
`n` is present. -/
theorem registerServer_key_ne (reg : ServersInfoMap)
    (conns : List (String × ClientModel)) (m n : String) (hne : m ≠ n) :
    hasServer ((registerServer reg conns m).2) n = hasServer reg n := by
  by_cases h1 : hasServer reg m
  · simp [registerServer, h1]
  · cases hl : lookupConnection conns m with
    | none => simp [registerServer, h1, hl]
    | some c =>
      cases ht : c.listToolsResult with
      | error msg => simp [registerServer, h1, hl, ht]
      | ok tools =>
        simp only [registerServer, h1, hl, ht, if_false, Bool.false_eq_true]
        unfold hasServer lookupServer
        rw [List.find?_append]
        have hsingle : (([(m,
            (⟨m, some c,
              tools.map (fun t => { t with title := convertToolName t.name })⟩ :
                ServerInfoModel))] : ServersInfoMap).find?
              (fun e => e.1 == n)) = none := by
          simp [hne]
        rw [hsingle]
        cases reg.find? (fun e => e.1 == n) with
        | none => rfl
        | some x => rfl

/-- With duplicate-free connection keys, membership determines the
looked-up client. -/
theorem lookupConnection_of_mem_nodup
    (conns : List (String × ClientModel)) (n : String) (c : ClientModel)
    (hnd : (conns.map Prod.fst).Nodup) (hmem : (n, c) ∈ conns) :
    lookupConnection conns n = some c := by
  induction conns with
  | nil => cases hmem
  | cons e rest ih =>
    obtain ⟨m, cm⟩ := e
    rw [List.map_cons, List.nodup_cons] at hnd
    rcases List.mem_cons.mp hmem with heq | hmem'
    · cases heq
      simp [lookupConnection]
    · have hne : m ≠ n := fun he =>
        hnd.1 (by rw [he]; exact List.mem_map.mpr ⟨(n, c), hmem', rfl⟩)
      have hrest := ih hnd.2 hmem'
      simp only [lookupConnection, List.find?] at hrest ⊢
      rw [show ((m, cm).1 == n) = false from beq_eq_false_iff_ne.mpr hne]
      exact hrest

/-- During bulk registration, a server whose connection is recorded and
whose `listTools` succeeds ends up registered, regardless of failures of
other servers. -/
theorem registerAll_reach (conns : List (String × ClientModel)) (n : String)
    (c : ClientModel) (tools : List ToolF)
    (hconn : lookupConnection conns n = some c)
    (ht : c.listToolsResult = .ok tools) :
    ∀ (l : List (String × ClientModel)) (reg : ServersInfoMap), (n, c) ∈ l →
      hasServer (l.foldl (fun r e => (registerServer r conns e.1).2) reg) n =
        true := by
  intro l
  induction l with
  | nil => intro reg hmem; cases hmem
  | cons e rest ih =>
    intro reg hmem
    rcases List.mem_cons.mp hmem with heq | hmem'
    · cases heq
      simp only [List.foldl_cons]
      by_cases hh : hasServer reg n = true
      · exact foldlPreserves (fun r => hasServer r n = true) _
          (fun a b ha => registerServer_mono a conns b.1 n ha) rest _
          (registerServer_mono reg conns n n hh)
      · have hf : reg.find? (fun e => e.1 == n) = none := by
          unfold hasServer lookupServer at hh
          cases hf2 : reg.find? (fun e => e.1 == n) with
          | none => rfl
          | some x => rw [hf2] at hh; simp at hh
        have hstep : hasServer ((registerServer reg conns n).2) n = true := by
          simp [registerServer, hh, hconn, ht, hasServer, lookupServer,
            List.find?_append, hf]
        exact foldlPreserves (fun r => hasServer r n = true) _
          (fun a b ha => registerServer_mono a conns b.1 n ha) rest _ hstep
    · exact ih _ hmem'

/-- During bulk registration, a server absent from the registry whose
`listTools` fails stays absent: its failure is skipped. -/
theorem registerAll_out (conns : List (String × ClientModel)) (n : String)
    (c : ClientModel) (msg : String)
    (hconn : lookupConnection conns n = some c)
    (ht : c.listToolsResult = .error msg) :
    ∀ (l : List (String × ClientModel)) (reg : ServersInfoMap),
      (∀ e ∈ l, e.1 = n → e.2 = c) → hasServer reg n = false →
      hasServer (l.foldl (fun r e => (registerServer r conns e.1).2) reg) n =
        false := by
  intro l
  induction l with
  | nil => intro reg _ hreg; exact hreg
  | cons e rest ih =>
    intro reg hall hreg
    obtain ⟨m, cm⟩ := e
    simp only [List.foldl_cons]
    by_cases hmn : m = n
    · subst hmn
      have hcm : cm = c := hall (m, cm) (List.mem_cons_self _ _) rfl
      subst hcm
      have hstep : (registerServer reg conns m).2 = reg := by
        simp [registerServer, hreg, hconn, ht]
      rw [hstep]
      exact ih _ (fun e he hen => hall e (List.mem_cons_of_mem _ he) hen) hreg
    · exact ih _ (fun e he hen => hall e (List.mem_cons_of_mem _ he) hen)
        (by rw [registerServer_key_ne reg conns m n hmn]; exact hreg)

/-- C9: `registerServer` fails when the server is already registered or
no connection handle exists, every failure (a `listTools` failure
included) leaves the registry map without an entry for that server, and
`registerAllServers` skips per-server failures while still registering
the remaining servers. -/
theorem c9_register_server (reg : ServersInfoMap)
    (conns : List (String × ClientModel)) (n : String) (c : ClientModel)
    (msg : String) (tools : List ToolF) :
    (hasServer reg n = true →
      registerServer reg conns n =
        (.error ("Server '" ++ n ++ "' is already registered"), reg)) ∧
    (hasServer reg n = false → lookupConnection conns n = none →
      registerServer reg conns n =
        (.error ("Connection for server '" ++ n ++ "' not found"), reg)) ∧
    (∀ e, (registerServer reg conns n).1 = .error e →
      (registerServer reg conns n).2 = reg) ∧
    ((conns.map Prod.fst).Nodup → (n, c) ∈ conns →
      c.listToolsResult = .error msg → hasServer reg n = false →
      hasServer (registerAllServers reg conns) n = false) ∧
    ((conns.map Prod.fst).Nodup → (n, c) ∈ conns →
      c.listToolsResult = .ok tools →
      hasServer (registerAllServers reg conns) n = true) := by
  refine ⟨?_, ?_, ?_, ?_, ?_⟩
  · intro h; simp [registerServer, h]
  · intro h hl; simp [registerServer, h, hl]
  · intro e he; exact registerServer_error_state reg conns n e he
  · intro hnd hmem ht hreg
    have hconn := lookupConnection_of_mem_nodup conns n c hnd hmem
    refine registerAll_out conns n c msg hconn ht conns reg ?_ hreg
    intro e he hen
    have : lookupConnection conns n = some e.2 := by
      apply lookupConnection_of_mem_nodup conns n e.2 hnd
      have : e = (n, e.2) := by
        rw [← hen]
      rw [← this]
      exact he
    rw [hconn] at this
    exact (Option.some.injEq _ _ ▸ this).symm ▸ rfl
  · intro hnd hmem ht
    have hconn := lookupConnection_of_mem_nodup conns n c hnd hmem
    exact registerAll_reach conns n c tools hconn ht conns reg hmem

/-- Fixture: a client whose `listTools` fails. -/
def cBad : ClientModel := { instructions := none, listToolsResult := .error "boom" }

/-- Fixture: one healthy and one failing connection. -/
def connsEx : List (String × ClientModel) := [("w", weatherClient), ("b", cBad)]

/-- C9 witness: a duplicate registration fails; bulk registration on the
mixed fixture keeps the failing server out and registers the healthy
one. -/
theorem c9_register_server_witness :
    hasServer weatherRegistry "weather" = true ∧
    registerServer weatherRegistry [] "weather" =
      (.error ("Server '" ++ "weather" ++ "' is already registered"),
       weatherRegistry) ∧
    (connsEx.map Prod.fst).Nodup ∧
    cBad.listToolsResult = .error "boom" ∧
    weatherClient.listToolsResult = .ok [toolForecast] ∧
    hasServer (registerAllServers [] connsEx) "b" = false ∧
    hasServer (registerAllServers [] connsEx) "w" = true := by
  refine ⟨rfl, ?_, by decide, rfl, rfl, ?_, ?_⟩
  · exact (c9_register_server weatherRegistry [] "weather" cBad "boom" []).1 rfl
  · exact (c9_register_server ([] : ServersInfoMap) connsEx "b" cBad "boom"
      []).2.2.2.1 (by decide)
      (List.mem_cons_of_mem _ (List.mem_cons_self _ _)) rfl rfl
  · exact (c9_register_server ([] : ServersInfoMap) connsEx "w" weatherClient
      "boom" [toolForecast]).2.2.2.2 (by decide) (List.mem_cons_self _ _) rfl
